import Mathlib

/-!
Verification of the preset/parameter synchronization logic of the
`Parameters` component in `laser_frontend/src/components/Parameters.vue`
(metaSVG-print).

The component is shallowly embedded: its `data` record becomes
`ParamState`, catalog entries become `Preset`, and the methods
`applyParams`, `applyPreset` and `updatePresetsOptions` become pure
functions that return the new state together with the list of
`ParameterSnapshot`s emitted (via `this.$emit("update", ...)`) during the
call, in emission order.  A user changing the preset `<select>` is
modelled by `selectPreset` (the `v-model` writes the chosen value to
`this.preset`, then the `@change` handler runs `applyPreset`); a user
editing one bound input is modelled by `editField` (the `v-model` writes
the field, then `@change` runs `applyParams`).  Numeric inputs are
modelled as rationals; the synchronization logic only copies and
compares them.
-/

namespace MetaSVG

/-- A catalog entry, as consumed through the component's `presets` prop:
`applyPreset` reads the fields `preset` (the name), `notes`, `thickness`,
`width`, `height`, `kerf`, the nine joint-fit components and `style`. -/
structure Preset where
  preset : String
  notes : String
  thickness : Rat
  width : Rat
  height : Rat
  kerf : Rat
  boxC : Rat
  boxL : Rat
  boxI : Rat
  tabC : Rat
  tabL : Rat
  tabI : Rat
  slotC : Rat
  slotL : Rat
  slotI : Rat
  style : String
deriving DecidableEq

/-- The component's `data` record: the live parameter set, the `scale`
factor and the currently selected preset name (`preset`, `"custom"` or a
catalog name). -/
structure ParamState where
  scale : Rat
  preset : String
  notes : String
  thickness : Rat
  width : Rat
  height : Rat
  kerf : Rat
  boxC : Rat
  boxL : Rat
  boxI : Rat
  tabC : Rat
  tabL : Rat
  tabI : Rat
  slotC : Rat
  slotL : Rat
  slotI : Rat
  style : String
deriving DecidableEq

/-- The built-in defaults returned by the component's `data()`. -/
def defaultData : ParamState where
  scale := 1
  preset := "custom"
  notes := "No notes"
  thickness := 3
  width := 450
  height := 300
  kerf := 1/20
  boxC := 0
  boxL := 0
  boxI := 0
  tabC := 0
  tabL := 0
  tabI := 0
  slotC := 0
  slotL := 0
  slotI := 0
  style := "stroke:#ff00ff;stroke-width:5px;"

/-- The object literal emitted by `applyParams` via
`this.$emit("update", {...})`: one snapshot of every field. -/
structure Snapshot where
  preset : String
  notes : String
  scale : Rat
  thickness : Rat
  width : Rat
  height : Rat
  kerf : Rat
  boxC : Rat
  boxL : Rat
  boxI : Rat
  tabC : Rat
  tabL : Rat
  tabI : Rat
  slotC : Rat
  slotL : Rat
  slotI : Rat
  style : String
deriving DecidableEq

/-- `applyParams`: builds the emitted object from the current fields.
The method itself only emits; the snapshot value is returned here and the
callers below collect the emissions in order. -/
def applyParams (s : ParamState) : Snapshot where
  preset := s.preset
  notes := s.notes
  scale := s.scale
  thickness := s.thickness
  width := s.width
  height := s.height
  kerf := s.kerf
  boxC := s.boxC
  boxL := s.boxL
  boxI := s.boxI
  tabC := s.tabC
  tabL := s.tabL
  tabI := s.tabI
  slotC := s.slotC
  slotL := s.slotL
  slotI := s.slotI
  style := s.style

/-- The body of `applyPreset`'s match branch: the bulk assignment of all
fifteen preset fields onto the live state (`this.notes = preset.notes;`
... `this.style = preset.style;`).  `scale` and `preset` (the selected
name) are not assigned. -/
def copyPreset (p : Preset) (s : ParamState) : ParamState :=
  { s with
    notes := p.notes
    thickness := p.thickness
    width := p.width
    height := p.height
    kerf := p.kerf
    boxC := p.boxC
    boxL := p.boxL
    boxI := p.boxI
    tabC := p.tabC
    tabL := p.tabL
    tabI := p.tabI
    slotC := p.slotC
    slotL := p.slotL
    slotI := p.slotI
    style := p.style }

/-- `applyPreset`: iterates over `this.presets`; on the first entry whose
`preset` field equals `this.preset` it copies all fields, calls
`applyParams` (one emission) and `break`s.  If no entry matches
(including when `this.preset` is `"custom"`), the loop falls through and
nothing happens: no copy, no emission. -/
def applyPreset : List Preset → ParamState → ParamState × List Snapshot
  | [], s => (s, [])
  | p :: rest, s =>
    if p.preset = s.preset then
      (copyPreset p s, [applyParams (copyPreset p s)])
    else
      applyPreset rest s

/-- A user selecting entry `name` in the preset `<select>`: the `v-model`
sets `this.preset := name`, then the `@change` handler runs
`applyPreset`. -/
def selectPreset (presets : List Preset) (name : String) (s : ParamState) :
    ParamState × List Snapshot :=
  applyPreset presets { s with preset := name }

/-- One editable field of the panel, with the value typed into it.  Each
constructor corresponds to one `v-model`-bound input of the template. -/
inductive FieldEdit where
  | scale (v : Rat)
  | notes (v : String)
  | thickness (v : Rat)
  | width (v : Rat)
  | height (v : Rat)
  | kerf (v : Rat)
  | boxC (v : Rat)
  | boxL (v : Rat)
  | boxI (v : Rat)
  | tabC (v : Rat)
  | tabL (v : Rat)
  | tabI (v : Rat)
  | slotC (v : Rat)
  | slotL (v : Rat)
  | slotI (v : Rat)
  | style (v : String)
deriving DecidableEq

/-- The single-field overwrite performed by the `v-model` binding of the
edited input. -/
def setField : FieldEdit → ParamState → ParamState
  | .scale v, s => { s with scale := v }
  | .notes v, s => { s with notes := v }
  | .thickness v, s => { s with thickness := v }
  | .width v, s => { s with width := v }
  | .height v, s => { s with height := v }
  | .kerf v, s => { s with kerf := v }
  | .boxC v, s => { s with boxC := v }
  | .boxL v, s => { s with boxL := v }
  | .boxI v, s => { s with boxI := v }
  | .tabC v, s => { s with tabC := v }
  | .tabL v, s => { s with tabL := v }
  | .tabI v, s => { s with tabI := v }
  | .slotC v, s => { s with slotC := v }
  | .slotL v, s => { s with slotL := v }
  | .slotI v, s => { s with slotI := v }
  | .style v, s => { s with style := v }

/-- Whether a `FieldEdit` targets the `scale` input. -/
def FieldEdit.isScale : FieldEdit → Bool
  | .scale _ => true
  | _ => false

/-- A user editing one bound field: the `v-model` overwrites the field,
then the `@change` handler runs `applyParams` (one emission).  The
selected preset name is not touched: the detachment to `"custom"` is
only a TODO comment in the source. -/
def editField (e : FieldEdit) (s : ParamState) : ParamState × List Snapshot :=
  (setField e s, [applyParams (setField e s)])

/-- One `<option>` of the preset `<select>`. -/
structure SelectOption where
  value : String
  label : String
  disabled : Bool
deriving DecidableEq

/-- The disabled placeholder `<option disabled value>Please select one</option>`. -/
def placeholderOption : SelectOption where
  value := ""
  label := "Please select one"
  disabled := true

/-- The `<option value="custom">custom</option>` entry written by
`updatePresetsOptions`. -/
def customOption : SelectOption where
  value := "custom"
  label := "custom"
  disabled := false

/-- The `<option>` appended for one catalog entry: value and text are the
entry's `preset` name. -/
def presetOption (p : Preset) : SelectOption where
  value := p.preset
  label := p.preset
  disabled := false

/-- The full option list `updatePresetsOptions` leaves in the `<select>`:
the placeholder and `"custom"` (written wholesale through `innerHTML`),
then one appended option per catalog entry, in catalog order. -/
def rebuildOptions (presets : List Preset) : List SelectOption :=
  placeholderOption :: customOption :: presets.map presetOption

/-- The selectable values of an option list: values of the options that
are not disabled. -/
def selectableValues (opts : List SelectOption) : List String :=
  (opts.filter fun o => !o.disabled).map fun o => o.value

/-- The names of a catalog, in catalog order. -/
def names (presets : List Preset) : List String :=
  presets.map Preset.preset

/-- `updatePresetsOptions` (the reaction to a catalog replacement, via the
`presets` watcher): rebuilds the option list; if the new catalog is
non-empty, sets `this.preset` to the first entry's name and runs
`applyPreset`; then (in every case) runs `applyParams` once more.
Returns the new state, the rebuilt option list, and the emissions in
order. -/
def updatePresetsOptions (presets : List Preset) (s : ParamState) :
    ParamState × List SelectOption × List Snapshot :=
  match presets with
  | [] => (s, rebuildOptions [], [applyParams s])
  | p0 :: rest =>
    let r := applyPreset (p0 :: rest) { s with preset := p0.preset }
    (r.1, rebuildOptions (p0 :: rest), r.2 ++ [applyParams r.1])

/-- The live state carries exactly the fields of a preset (everything a
preset application copies; `scale` and the selected name excluded). -/
abbrev matchesPreset (s : ParamState) (p : Preset) : Prop :=
  s.notes = p.notes ∧ s.thickness = p.thickness ∧ s.width = p.width ∧
  s.height = p.height ∧ s.kerf = p.kerf ∧ s.boxC = p.boxC ∧
  s.boxL = p.boxL ∧ s.boxI = p.boxI ∧ s.tabC = p.tabC ∧
  s.tabL = p.tabL ∧ s.tabI = p.tabI ∧ s.slotC = p.slotC ∧
  s.slotL = p.slotL ∧ s.slotI = p.slotI ∧ s.style = p.style

/-- Two states agree on every field except possibly the selected preset
name. -/
abbrev sameFields (s t : ParamState) : Prop :=
  s.scale = t.scale ∧ s.notes = t.notes ∧ s.thickness = t.thickness ∧
  s.width = t.width ∧ s.height = t.height ∧ s.kerf = t.kerf ∧
  s.boxC = t.boxC ∧ s.boxL = t.boxL ∧ s.boxI = t.boxI ∧
  s.tabC = t.tabC ∧ s.tabL = t.tabL ∧ s.tabI = t.tabI ∧
  s.slotC = t.slotC ∧ s.slotL = t.slotL ∧ s.slotI = t.slotI ∧
  s.style = t.style

/-- A concrete plywood preset used as a test input. -/
def plyPreset : Preset where
  preset := "ply3mm"
  notes := "plywood sheet"
  thickness := 3
  width := 450
  height := 300
  kerf := 1/10
  boxC := 0
  boxL := 0
  boxI := 0
  tabC := 0
  tabL := 0
  tabI := 0
  slotC := 0
  slotL := 0
  slotI := 0
  style := "stroke:#000000;"

/-- A second concrete preset with a different name. -/
def mdfPreset : Preset where
  preset := "mdf6mm"
  notes := "mdf sheet"
  thickness := 6
  width := 600
  height := 400
  kerf := 3/20
  boxC := 1/100
  boxL := 0
  boxI := 0
  tabC := 1/100
  tabL := 0
  tabI := 0
  slotC := 1/100
  slotL := 0
  slotI := 0
  style := "stroke:#0000ff;"

/-- A duplicate of `plyPreset`'s name with different field values, to
exercise catalogs that violate name uniqueness. -/
def plyPresetDup : Preset :=
  { plyPreset with thickness := 7, notes := "duplicate entry" }

/-- Same name as `plyPreset`, different notes: used for the idempotence
of the option-list rebuild. -/
def plyPresetVariant : Preset :=
  { plyPreset with notes := "other batch" }

/-- A pathological catalog entry literally named `"custom"`. -/
def customNamedPreset : Preset :=
  { plyPreset with preset := "custom", thickness := 99 }

/-! ## Helper lemmas about the `applyPreset` loop -/

/-- When the current name matches no catalog entry, the loop falls
through: state untouched, nothing emitted. -/
theorem applyPreset_not_mem (c : List Preset) (s : ParamState)
    (h : s.preset ∉ names c) : applyPreset c s = (s, []) := by
  induction c with
  | nil => rfl
  | cons p rest ih =>
    have h1 : ¬ p.preset = s.preset := by
      intro he
      exact h (by simp [names, he])
    have h2 : s.preset ∉ names rest := by
      intro hm
      simp only [names, List.map_cons] at h
      exact h (List.mem_cons_of_mem _ (by simpa [names] using hm))
    simp [applyPreset, h1, ih h2]

/-- The loop applies the first entry whose name matches and stops
there. -/
theorem applyPreset_first (pre post : List Preset) (P : Preset) (s : ParamState)
    (hP : P.preset = s.preset) (hpre : s.preset ∉ names pre) :
    applyPreset (pre ++ P :: post) s =
      (copyPreset P s, [applyParams (copyPreset P s)]) := by
  induction pre with
  | nil => simp [applyPreset, hP]
  | cons q qs ih =>
    have h1 : ¬ q.preset = s.preset := by
      intro he
      exact hpre (by simp [names, he])
    have h2 : s.preset ∉ names qs := by
      intro hm
      simp only [names, List.map_cons] at hpre
      exact hpre (List.mem_cons_of_mem _ (by simpa [names] using hm))
    simp only [List.cons_append]
    simp [applyPreset, h1, ih h2]

/-- In a catalog with unique names the entry found by the loop is the
member carrying the current name. -/
theorem applyPreset_nodup_mem (c : List Preset) (P : Preset) (s : ParamState)
    (hnd : (names c).Nodup) (hmem : P ∈ c) (hP : s.preset = P.preset) :
    applyPreset c s = (copyPreset P s, [applyParams (copyPreset P s)]) := by
  induction c with
  | nil => cases hmem
  | cons q rest ih =>
    have hnd' : q.preset ∉ names rest ∧ (names rest).Nodup := by
      simpa only [names, List.map_cons, List.nodup_cons] using hnd
    rcases List.mem_cons.mp hmem with rfl | hmem'
    · simp [applyPreset, hP]
    · have hq : ¬ q.preset = s.preset := by
        intro he
        have hmemname : q.preset ∈ names rest := by
          rw [he, hP]
          exact List.mem_map_of_mem Preset.preset hmem'
        exact hnd'.1 hmemname
      simp [applyPreset, hq]
      exact ih hnd'.2 hmem'

/-- The loop never touches `scale`. -/
theorem applyPreset_fst_scale (c : List Preset) (s : ParamState) :
    (applyPreset c s).1.scale = s.scale := by
  induction c with
  | nil => rfl
  | cons p rest ih =>
    by_cases h : p.preset = s.preset
    · simp [applyPreset, h, copyPreset]
    · simp [applyPreset, h, ih]

/-- When the current name is in the catalog, the loop emits exactly one
snapshot, and it is the snapshot of the state the loop ends in. -/
theorem applyPreset_snd_of_mem (c : List Preset) (s : ParamState)
    (h : s.preset ∈ names c) :
    (applyPreset c s).2 = [applyParams (applyPreset c s).1] := by
  induction c with
  | nil => simp [names] at h
  | cons p rest ih =>
    by_cases hp : p.preset = s.preset
    · simp [applyPreset, hp]
    · have h' : s.preset ∈ names rest := by
        simp only [names, List.map_cons, List.mem_cons] at h
        rcases h with h | h
        · exact absurd h.symm hp
        · simpa [names] using h
      simp [applyPreset, hp, ih h']

/-- The option list component of `updatePresetsOptions` is the rebuilt
list, in both branches. -/
theorem updatePresetsOptions_options (c : List Preset) (s : ParamState) :
    (updatePresetsOptions c s).2.1 = rebuildOptions c := by
  cases c <;> rfl

/-- The appended preset options are a function of the name list alone. -/
theorem map_presetOption_eq (c : List Preset) :
    c.map presetOption = (names c).map (fun n => SelectOption.mk n n false) := by
  induction c with
  | nil => rfl
  | cons p rest ih =>
    simp only [names, List.map_cons] at ih ⊢
    rw [ih]
    rfl

/-- Catalogs with equal name lists rebuild equal option lists. -/
theorem rebuildOptions_eq_of_names (c1 c2 : List Preset) (h : names c1 = names c2) :
    rebuildOptions c1 = rebuildOptions c2 := by
  unfold rebuildOptions
  rw [map_presetOption_eq, map_presetOption_eq, h]

/-- The selectable values of the rebuilt list are `"custom"` followed by
the catalog names in order. -/
theorem selectableValues_rebuild (c : List Preset) :
    selectableValues (rebuildOptions c) = "custom" :: names c := by
  induction c with
  | nil => rfl
  | cons p rest ih =>
    simp only [rebuildOptions, selectableValues, List.map_cons, names,
      List.filter_cons] at ih ⊢
    simpa [placeholderOption, customOption, presetOption, names] using ih

/-! ## The claims -/

/-- C1: for every catalog with unique names and every preset `P` in it,
`selectPreset P.preset` copies every preset field (notes, thickness,
width, height, kerf, the nine joint-fit components, style) from `P` into
the live state and leaves `P.preset` as the selected name, so that
afterwards every editable field equals `P`'s. -/
theorem selectPreset_binds_to_preset (c : List Preset) (P : Preset)
    (s : ParamState) (hnd : (names c).Nodup) (hmem : P ∈ c) :
    (selectPreset c P.preset s).1.preset = P.preset ∧
    matchesPreset (selectPreset c P.preset s).1 P := by
  have h := applyPreset_nodup_mem c P { s with preset := P.preset } hnd hmem rfl
  unfold selectPreset
  rw [h]
  simp [copyPreset, matchesPreset]

/-- C1 witness: the concrete two-entry catalog, binding to its second
entry. -/
theorem selectPreset_binds_to_preset_witness :
    (selectPreset [plyPreset, mdfPreset] mdfPreset.preset defaultData).1.preset
      = mdfPreset.preset ∧
    matchesPreset
      (selectPreset [plyPreset, mdfPreset] mdfPreset.preset defaultData).1
      mdfPreset :=
  selectPreset_binds_to_preset [plyPreset, mdfPreset] mdfPreset defaultData
    (by decide) (List.mem_cons_of_mem _ (List.mem_cons_self _ _))

/-- C2: the claimed invariant fails in the code.  After binding to
`plyPreset` and editing `thickness` to `5`, the selected name is still
`"ply3mm"` (not `"custom"`) although the live `thickness` (5) no longer
matches the preset's (3): `applyParams` carries only the TODO comment
`change to "custom" preset if values don't match` and never reassigns
`this.preset`. -/
theorem editField_does_not_detach :
    ((editField (FieldEdit.thickness 5)
        (selectPreset [plyPreset] "ply3mm" defaultData).1).1.preset = "ply3mm") ∧
    ((editField (FieldEdit.thickness 5)
        (selectPreset [plyPreset] "ply3mm" defaultData).1).1.thickness = 5) ∧
    plyPreset.thickness = 3 ∧ ("ply3mm" : String) ≠ "custom" := by
  decide

/-- C3 counterexample: selecting `"custom"` emits no snapshot at all,
and replacing the catalog by a non-empty one emits two, so "exactly one
snapshot per state-affecting operation" is false as stated. -/
theorem single_emission_counterexample :
    (selectPreset [plyPreset] "custom" defaultData).2.length ≠ 1 ∧
    (updatePresetsOptions [plyPreset] defaultData).2.2.length ≠ 1 := by
  decide

/-- C3 (amended): `editField`, and `selectPreset` with a name present in
the catalog, each emit exactly one snapshot, equal to `applyParams` of
the state at emission time; `selectPreset` with a name not in the
catalog (`"custom"` included) emits none; a catalog replacement emits
two identical snapshots of the final state when the catalog is non-empty
and one when it is empty; and every snapshot built by `applyParams`
carries every field of the live state, the selected name and `scale`
included. -/
theorem snapshot_emission_discipline :
    (∀ (e : FieldEdit) (s : ParamState),
      (editField e s).2 = [applyParams (editField e s).1]) ∧
    (∀ (c : List Preset) (n : String) (s : ParamState), n ∈ names c →
      (selectPreset c n s).2 = [applyParams (selectPreset c n s).1]) ∧
    (∀ (c : List Preset) (n : String) (s : ParamState), n ∉ names c →
      (selectPreset c n s).2 = []) ∧
    (∀ (p0 : Preset) (rest : List Preset) (s : ParamState),
      (updatePresetsOptions (p0 :: rest) s).2.2 =
        [applyParams (updatePresetsOptions (p0 :: rest) s).1,
         applyParams (updatePresetsOptions (p0 :: rest) s).1]) ∧
    (∀ s : ParamState, (updatePresetsOptions [] s).2.2 = [applyParams s]) ∧
    (∀ s : ParamState, applyParams s =
      ⟨s.preset, s.notes, s.scale, s.thickness, s.width, s.height, s.kerf,
       s.boxC, s.boxL, s.boxI, s.tabC, s.tabL, s.tabI, s.slotC, s.slotL,
       s.slotI, s.style⟩) := by
  refine ⟨fun e s => rfl, ?_, ?_, ?_, fun s => rfl, fun s => rfl⟩
  · intro c n s h
    exact applyPreset_snd_of_mem c { s with preset := n } h
  · intro c n s h
    unfold selectPreset
    rw [applyPreset_not_mem c { s with preset := n } h]
  · intro p0 rest s
    simp [updatePresetsOptions, applyPreset]

/-- C3 witness: one catalog selection emitting its single snapshot, one
unknown selection emitting none. -/
theorem snapshot_emission_discipline_witness :
    (selectPreset [plyPreset] "ply3mm" defaultData).2 =
      [applyParams (selectPreset [plyPreset] "ply3mm" defaultData).1] ∧
    (selectPreset [plyPreset] "nosuch" defaultData).2 = [] := by
  have h := snapshot_emission_discipline
  exact ⟨h.2.1 [plyPreset] "ply3mm" defaultData (by decide),
         h.2.2.1 [plyPreset] "nosuch" defaultData (by decide)⟩

/-- C4: replacing the catalog with a non-empty one selects and applies
its first entry: the resulting state is named after `P1` and carries
`P1`'s fields. -/
theorem catalog_replacement_selects_first (P1 : Preset) (rest : List Preset)
    (s : ParamState) :
    (updatePresetsOptions (P1 :: rest) s).1.preset = P1.preset ∧
    matchesPreset (updatePresetsOptions (P1 :: rest) s).1 P1 := by
  simp [updatePresetsOptions, applyPreset, copyPreset, matchesPreset]

/-- C5 counterexample: with a catalog entry literally named `"custom"`,
selecting `"custom"` overwrites the live fields (here thickness becomes
99 instead of staying 3), so "every other field unchanged after
selectPreset(custom)" is false over all states. -/
theorem select_custom_counterexample :
    (selectPreset [customNamedPreset] "custom" defaultData).1.thickness = 99 ∧
    defaultData.thickness = 3 := by
  decide

/-- C5 (amended): provided no catalog entry is named `"custom"` (the
sentinel), selecting `"custom"` sets the selected name to `"custom"` and
leaves every other field, `scale` included, unchanged. -/
theorem select_custom_keeps_fields (c : List Preset) (s : ParamState)
    (h : "custom" ∉ names c) :
    (selectPreset c "custom" s).1.preset = "custom" ∧
    sameFields (selectPreset c "custom" s).1 s := by
  have hh := applyPreset_not_mem c { s with preset := "custom" } h
  unfold selectPreset
  rw [hh]
  simp [sameFields]

/-- C5 witness at the concrete singleton catalog. -/
theorem select_custom_keeps_fields_witness :
    (selectPreset [plyPreset] "custom" defaultData).1.preset = "custom" ∧
    sameFields (selectPreset [plyPreset] "custom" defaultData).1 defaultData :=
  select_custom_keeps_fields [plyPreset] defaultData (by decide)

/-- C6: a name that is neither `"custom"` nor a catalog name makes
`selectPreset` a silent no-op on the editable fields: nothing is copied,
every field keeps its value, and no snapshot is emitted by the
preset-application path. -/
theorem select_unknown_silent_noop (c : List Preset) (n : String)
    (s : ParamState) (_h1 : n ≠ "custom") (h2 : n ∉ names c) :
    sameFields (selectPreset c n s).1 s ∧ (selectPreset c n s).2 = [] := by
  have hh := applyPreset_not_mem c { s with preset := n } h2
  unfold selectPreset
  rw [hh]
  simp [sameFields]

/-- C6 witness: an unknown name against the concrete catalog. -/
theorem select_unknown_silent_noop_witness :
    sameFields (selectPreset [plyPreset] "acrylic2mm" defaultData).1 defaultData ∧
    (selectPreset [plyPreset] "acrylic2mm" defaultData).2 = [] :=
  select_unknown_silent_noop [plyPreset] "acrylic2mm" defaultData
    (by decide) (by decide)

/-- C7: replacing the catalog with the empty catalog leaves the whole
live state, the selected name included, unchanged. -/
theorem empty_catalog_keeps_state (s : ParamState) :
    (updatePresetsOptions [] s).1 = s := rfl

/-- C8: `scale` is never modified by preset application: `selectPreset`
with any name and `updatePresetsOptions` with any catalog leave it
exactly as before; editing any non-scale field leaves it unchanged; only
an edit of the `scale` input changes it. -/
theorem scale_untouched_by_presets :
    (∀ (c : List Preset) (n : String) (s : ParamState),
      (selectPreset c n s).1.scale = s.scale) ∧
    (∀ (c : List Preset) (s : ParamState),
      (updatePresetsOptions c s).1.scale = s.scale) ∧
    (∀ (e : FieldEdit) (s : ParamState), e.isScale = false →
      (editField e s).1.scale = s.scale) ∧
    (∀ (v : Rat) (s : ParamState),
      (editField (FieldEdit.scale v) s).1.scale = v) := by
  refine ⟨?_, ?_, ?_, fun v s => rfl⟩
  · intro c n s
    exact applyPreset_fst_scale c { s with preset := n }
  · intro c s
    cases c with
    | nil => rfl
    | cons p0 rest =>
      simp only [updatePresetsOptions]
      exact applyPreset_fst_scale (p0 :: rest) { s with preset := p0.preset }
  · intro e s he
    cases e <;> simp_all [editField, setField, FieldEdit.isScale]

/-- C8 witness: a notes edit keeps `scale`. -/
theorem scale_untouched_by_presets_witness :
    (editField (FieldEdit.notes "hello") defaultData).1.scale
      = defaultData.scale := by
  have h := scale_untouched_by_presets
  exact h.2.2.1 (FieldEdit.notes "hello") defaultData rfl

/-- C9: after any catalog replacement the selectable option values are
exactly `"custom"` followed by the catalog names in catalog order, and
the rebuilt option list depends only on the name list, so the rebuild is
idempotent across catalogs with the same names in the same order. -/
theorem option_list_rebuild :
    (∀ (c : List Preset) (s : ParamState),
      selectableValues (updatePresetsOptions c s).2.1 = "custom" :: names c) ∧
    (∀ (c1 c2 : List Preset) (s1 s2 : ParamState), names c1 = names c2 →
      (updatePresetsOptions c1 s1).2.1 = (updatePresetsOptions c2 s2).2.1) := by
  constructor
  · intro c s
    rw [updatePresetsOptions_options]
    exact selectableValues_rebuild c
  · intro c1 c2 s1 s2 h
    rw [updatePresetsOptions_options, updatePresetsOptions_options]
    exact rebuildOptions_eq_of_names c1 c2 h

/-- C9 witness: concrete option list, and idempotence across two
catalogs carrying the same single name. -/
theorem option_list_rebuild_witness :
    selectableValues (updatePresetsOptions [plyPreset] defaultData).2.1 =
      "custom" :: names [plyPreset] ∧
    (updatePresetsOptions [plyPreset] defaultData).2.1 =
      (updatePresetsOptions [plyPresetVariant] defaultData).2.1 := by
  have h := option_list_rebuild
  exact ⟨h.1 [plyPreset] defaultData,
         h.2 [plyPreset] [plyPresetVariant] defaultData defaultData (by decide)⟩

/-- C10: when the catalog holds several entries with the requested name,
`selectPreset` applies the first matching entry in catalog order and
ignores all later ones: the loop stops at the first match, both in the
state it produces and in the single snapshot it emits. -/
theorem selectPreset_first_match (pre post : List Preset) (P : Preset)
    (name : String) (s : ParamState) (hP : P.preset = name)
    (hpre : name ∉ names pre) :
    (selectPreset (pre ++ P :: post) name s).1 =
      copyPreset P { s with preset := name } ∧
    (selectPreset (pre ++ P :: post) name s).2 =
      [applyParams (copyPreset P { s with preset := name })] := by
  have h := applyPreset_first pre post P { s with preset := name } hP hpre
  unfold selectPreset
  rw [h]
  exact ⟨rfl, rfl⟩

/-- C10 witness: a catalog where `"ply3mm"` occurs twice with different
thicknesses; the first occurrence wins. -/
theorem selectPreset_first_match_witness :
    (selectPreset ([mdfPreset] ++ plyPreset :: [plyPresetDup]) "ply3mm"
        defaultData).1 =
      copyPreset plyPreset { defaultData with preset := "ply3mm" } ∧
    (selectPreset ([mdfPreset] ++ plyPreset :: [plyPresetDup]) "ply3mm"
        defaultData).2 =
      [applyParams (copyPreset plyPreset { defaultData with preset := "ply3mm" })] :=
  selectPreset_first_match [mdfPreset] [plyPresetDup] plyPreset "ply3mm"
    defaultData rfl (by decide)

end MetaSVG
